import Mathlib

/-!
Shallow embedding of the IELTS speaking-practice app (src/App.tsx) together
with the audio utilities it imports from src/utils/audioUtils.ts.  The
audio-utility file itself is absent from the repository snapshot (only the
reference in src/App.tsx remains), so those definitions are modelled from
the specification; everything else is translated directly from src/App.tsx.
-/

set_option maxHeartbeats 1000000

/-! ## Sample codec (spec-modelled: src/utils/audioUtils.ts is missing) -/

/-- Standard base64 alphabet used by the wire encoding. -/
def b64Alphabet : List Char :=
  "ABCDEFGHIJKLMNOPQRSTUVWXYZabcdefghijklmnopqrstuvwxyz0123456789+/".toList

/-- Character for a 6-bit group. -/
def b64Char (s : Nat) : Char := b64Alphabet.getD s 'A'

/-- Value of a base64 character (list index in the alphabet). -/
def b64Val (c : Char) : Nat := b64Alphabet.indexOf c

/-- Split bytes into 6-bit groups, as base64 encoding does. -/
def sextetsOfBytes : List Nat → List Nat
  | [] => []
  | [a] => [a / 4, a % 4 * 16]
  | [a, b] => [a / 4, a % 4 * 16 + b / 16, b % 16 * 4]
  | a :: b :: c :: rest =>
    a / 4 :: (a % 4 * 16 + b / 16) :: (b % 16 * 4 + c / 64) :: c % 64 :: sextetsOfBytes rest

/-- Base64 padding characters for a byte count. -/
def b64PadChars (n : Nat) : List Char :=
  if n % 3 = 1 then ['=', '='] else if n % 3 = 2 then ['='] else []

/-- Modelled from the spec: the base64 encoding step of `createPcmBlob`
in src/utils/audioUtils.ts (file absent from the snapshot), which
"base64-encodes the result". -/
def base64Encode (bytes : List Nat) : String :=
  String.mk ((sextetsOfBytes bytes).map b64Char ++ b64PadChars bytes.length)

/-- Recombine 6-bit groups into bytes, as base64 decoding does. -/
def bytesOfSextets : List Nat → List Nat
  | s0 :: s1 :: s2 :: s3 :: rest =>
    (s0 * 4 + s1 / 16) :: (s1 % 16 * 16 + s2 / 4) :: (s2 % 4 * 64 + s3) :: bytesOfSextets rest
  | [s0, s1] => [s0 * 4 + s1 / 16]
  | [s0, s1, s2] => [s0 * 4 + s1 / 16, s1 % 16 * 16 + s2 / 4]
  | _ => []

/-- Modelled from the spec: `decode(base64_string) -> byte_buffer` in
src/utils/audioUtils.ts (file absent from the snapshot), the
"inverse base64 transform only; no resampling". -/
def decode (s : String) : List Nat :=
  bytesOfSextets ((s.toList.filter (fun c => c != '=')).map b64Val)

/-- Clamp a sample to [-1, 1]. -/
def clamp1 (x : ℚ) : ℚ := min 1 (max (-1) x)

/-- Truncation toward zero, as assignment into a 16-bit integer array does. -/
def truncQ (q : ℚ) : ℤ := if q < 0 then ⌈q⌉ else ⌊q⌋

/-- Modelled from the spec: the per-sample PCM16 quantization of
`createPcmBlob` in src/utils/audioUtils.ts (file absent from the snapshot):
clamp to [-1,1], scale by 32767 when nonnegative and by 32768 when negative,
then truncate to a 16-bit integer. -/
def floatTo16 (x : ℚ) : ℤ :=
  if clamp1 x < 0 then truncQ (clamp1 x * 32768) else truncQ (clamp1 x * 32767)

/-- Two's-complement 16-bit reinterpretation of a signed value. -/
def uint16OfInt16 (q : ℤ) : Nat := (q % 65536).toNat

/-- Little-endian byte packing of quantized samples. -/
def bytesOfSamples : List ℚ → List Nat
  | [] => []
  | x :: xs =>
    uint16OfInt16 (floatTo16 x) % 256 :: uint16OfInt16 (floatTo16 x) / 256 :: bytesOfSamples xs

/-- A wire blob: base64 payload plus mime type. -/
structure PcmBlob where
  data : String
  mimeType : String
deriving DecidableEq, Repr

/-- Modelled from the spec: `createPcmBlob` packs clamped, scaled samples as
16-bit signed little-endian integers and base64-encodes them with a mime type
identifying 16 kHz mono PCM16. -/
def createPcmBlob (xs : List ℚ) : PcmBlob :=
  { data := base64Encode (bytesOfSamples xs), mimeType := "audio/pcm;rate=16000" }

/-- Modelled from the spec: the sample-reconstruction step of
`decodeAudioData` in src/utils/audioUtils.ts (file absent from the snapshot):
reinterpret the bytes as 16-bit signed little-endian samples and divide each
by 32768 (mono case). -/
def samplesOfBytes : List Nat → List ℚ
  | lo :: hi :: rest =>
    (((if lo + 256 * hi < 32768 then (lo + 256 * hi : ℤ)
       else (lo + 256 * hi : ℤ) - 65536) : ℚ) / 32768) :: samplesOfBytes rest
  | _ => []

/-- Duration, in seconds, of the playable buffer decoded from a base64 chunk
at 24 kHz mono: one sample per two bytes. -/
def chunkDuration (b64 : String) : ℚ := (((decode b64).length / 2 : ℕ) : ℚ) / 24000

/-! ## Base64 round-trip lemmas -/

theorem sextetsOfBytes_lt : ∀ l : List Nat, (∀ b ∈ l, b < 256) →
    ∀ s ∈ sextetsOfBytes l, s < 64
  | [], _ => by simp [sextetsOfBytes]
  | [a], h => by
    have ha := h a (by simp)
    simp only [sextetsOfBytes, List.mem_cons, List.not_mem_nil, or_false]
    rintro s (rfl | rfl) <;> omega
  | [a, b], h => by
    have ha := h a (by simp)
    have hb := h b (by simp)
    simp only [sextetsOfBytes, List.mem_cons, List.not_mem_nil, or_false]
    rintro s (rfl | rfl | rfl) <;> omega
  | a :: b :: c :: rest, h => by
    have ha := h a (by simp)
    have hb := h b (by simp)
    have hc := h c (by simp)
    have ih := sextetsOfBytes_lt rest (fun x hx => h x (by simp [hx]))
    simp only [sextetsOfBytes, List.mem_cons]
    rintro s (rfl | rfl | rfl | rfl | hs)
    · omega
    · omega
    · omega
    · omega
    · exact ih s hs

theorem bytesOfSextets_sextetsOfBytes : ∀ l : List Nat, (∀ b ∈ l, b < 256) →
    bytesOfSextets (sextetsOfBytes l) = l
  | [], _ => rfl
  | [a], h => by
    have ha := h a (by simp)
    simp only [sextetsOfBytes, bytesOfSextets, List.cons.injEq, and_true]
    omega
  | [a, b], h => by
    have ha := h a (by simp)
    have hb := h b (by simp)
    simp only [sextetsOfBytes, bytesOfSextets, List.cons.injEq, and_true]
    omega
  | a :: b :: c :: rest, h => by
    have ha := h a (by simp)
    have hb := h b (by simp)
    have hc := h c (by simp)
    have ih := bytesOfSextets_sextetsOfBytes rest (fun x hx => h x (by simp [hx]))
    simp only [sextetsOfBytes, bytesOfSextets, List.cons.injEq]
    refine ⟨by omega, by omega, by omega, ih⟩

theorem b64Val_b64Char : ∀ s : Nat, s < 64 → b64Val (b64Char s) = s := by decide

theorem b64Char_ne_eq : ∀ s : Nat, s < 64 → (b64Char s != '=') = true := by decide

/-- Base64 round trip on valid byte lists. -/
theorem decode_base64Encode (l : List Nat) (h : ∀ b ∈ l, b < 256) :
    decode (base64Encode l) = l := by
  have hlt := sextetsOfBytes_lt l h
  unfold decode base64Encode
  have htl : (String.mk ((sextetsOfBytes l).map b64Char ++ b64PadChars l.length)).toList
      = (sextetsOfBytes l).map b64Char ++ b64PadChars l.length := rfl
  rw [htl, List.filter_append]
  have hfilt : ((sextetsOfBytes l).map b64Char).filter (fun c => c != '=')
      = (sextetsOfBytes l).map b64Char := by
    apply List.filter_eq_self.2
    intro c hc
    rcases List.mem_map.1 hc with ⟨s, hs, rfl⟩
    exact b64Char_ne_eq s (hlt s hs)
  have hpad : (b64PadChars l.length).filter (fun c => c != '=') = [] := by
    unfold b64PadChars
    split <;> simp
  rw [hfilt, hpad, List.append_nil, List.map_map]
  have hmap : ∀ m : List Nat, (∀ s ∈ m, s < 64) → m.map (b64Val ∘ b64Char) = m := by
    intro m
    induction m with
    | nil => intro _; rfl
    | cons a t ih =>
      intro hm
      simp only [List.map_cons, Function.comp_apply]
      rw [b64Val_b64Char a (hm a (by simp)), ih (fun s hs => hm s (by simp [hs]))]
  rw [hmap (sextetsOfBytes l) hlt]
  exact bytesOfSextets_sextetsOfBytes l h

/-! ## PCM16 quantization lemmas -/

theorem clamp1_mem (x : ℚ) : -1 ≤ clamp1 x ∧ clamp1 x ≤ 1 := by
  unfold clamp1
  constructor
  · exact le_min (by norm_num) (le_max_left _ _)
  · exact min_le_left _ _

theorem floatTo16_range (x : ℚ) : -32768 ≤ floatTo16 x ∧ floatTo16 x ≤ 32767 := by
  obtain ⟨h1, h2⟩ := clamp1_mem x
  unfold floatTo16 truncQ
  split
  · rename_i hneg
    rw [if_pos (by nlinarith : clamp1 x * 32768 < 0)]
    refine ⟨?_, ?_⟩
    · have hlt : ((-32769 : ℤ) : ℚ) < clamp1 x * 32768 := by push_cast; nlinarith
      have := Int.lt_ceil.2 hlt
      omega
    · have hle : clamp1 x * 32768 ≤ ((32767 : ℤ) : ℚ) := by push_cast; nlinarith
      exact Int.ceil_le.2 hle
  · rename_i hpos
    push_neg at hpos
    rw [if_neg (not_lt.2 (by nlinarith : (0:ℚ) ≤ clamp1 x * 32767))]
    refine ⟨?_, ?_⟩
    · have h0 : ((0 : ℤ) : ℚ) ≤ clamp1 x * 32767 := by push_cast; nlinarith
      have := Int.le_floor.2 h0
      omega
    · have hlt : clamp1 x * 32767 < ((32767 : ℤ) : ℚ) + 1 := by push_cast; nlinarith
      exact Int.floor_le_iff.2 hlt

theorem bytesOfSamples_lt (xs : List ℚ) : ∀ b ∈ bytesOfSamples xs, b < 256 := by
  induction xs with
  | nil => simp [bytesOfSamples]
  | cons x t ih =>
    simp only [bytesOfSamples, List.mem_cons]
    have hu : uint16OfInt16 (floatTo16 x) < 65536 := by
      unfold uint16OfInt16
      have := Int.emod_lt_of_pos (floatTo16 x) (by norm_num : (0:ℤ) < 65536)
      have h0 := Int.emod_nonneg (floatTo16 x) (by norm_num : (65536:ℤ) ≠ 0)
      omega
    rintro b (rfl | rfl | hb)
    · omega
    · omega
    · exact ih b hb

/-- Decoding the packed bytes recovers exactly the quantized value of each
sample, divided by 32768. -/
theorem samplesOfBytes_bytesOfSamples (xs : List ℚ) :
    samplesOfBytes (bytesOfSamples xs) = xs.map (fun x => ((floatTo16 x : ℤ) : ℚ) / 32768) := by
  induction xs with
  | nil => rfl
  | cons x t ih =>
    obtain ⟨hlo, hhi⟩ := floatTo16_range x
    simp only [bytesOfSamples, samplesOfBytes, List.map_cons, ih, List.cons.injEq, and_true]
    have hu : uint16OfInt16 (floatTo16 x) = (floatTo16 x % 65536).toNat := rfl
    split
    · rename_i hc
      rw [hu] at hc
      have hz : ((uint16OfInt16 (floatTo16 x) % 256 : ℕ) : ℤ)
            + 256 * ((uint16OfInt16 (floatTo16 x) / 256 : ℕ) : ℤ) = floatTo16 x := by
        rw [hu]
        omega
      rw [hz]
    · rename_i hc
      rw [hu] at hc
      have hz : ((uint16OfInt16 (floatTo16 x) % 256 : ℕ) : ℤ)
            + 256 * ((uint16OfInt16 (floatTo16 x) / 256 : ℕ) : ℤ) = floatTo16 x + 65536 := by
        rw [hu]
        omega
      rw [hz]
      push_cast
      ring


/-- Quantization error of one grid sample is at most one step. -/
theorem floatTo16_grid_error (k : ℤ) (hk1 : -32768 ≤ k) (hk2 : k ≤ 32768) :
    |((floatTo16 ((k : ℚ) / 32768) : ℤ) : ℚ) / 32768 - (k : ℚ) / 32768| ≤ 1 / 32768 := by
  have hk1Q : (-32768 : ℚ) ≤ (k : ℚ) := by exact_mod_cast hk1
  have hk2Q : (k : ℚ) ≤ 32768 := by exact_mod_cast hk2
  have hx1 : (-1 : ℚ) ≤ (k : ℚ) / 32768 := by
    rw [le_div_iff₀ (by norm_num : (0:ℚ) < 32768)]
    linarith
  have hx2 : (k : ℚ) / 32768 ≤ 1 := by
    rw [div_le_one (by norm_num : (0:ℚ) < 32768)]
    linarith
  have hcl : clamp1 ((k : ℚ) / 32768) = (k : ℚ) / 32768 := by
    unfold clamp1
    rw [max_eq_right hx1, min_eq_right hx2]
  by_cases hk0 : k < 0
  · have hxneg : (k : ℚ) / 32768 < 0 := by
      apply div_neg_of_neg_of_pos _ (by norm_num)
      exact_mod_cast hk0
    have hft : floatTo16 ((k : ℚ) / 32768) = k := by
      unfold floatTo16 truncQ
      rw [hcl, if_pos hxneg, if_pos (by nlinarith : (k : ℚ) / 32768 * 32768 < 0)]
      have harg : (k : ℚ) / 32768 * 32768 = (k : ℚ) := by field_simp
      rw [harg, Int.ceil_intCast]
    rw [hft, sub_self, abs_zero]
    norm_num
  · push_neg at hk0
    have hk0Q : (0 : ℚ) ≤ (k : ℚ) := by exact_mod_cast hk0
    have hxpos : ¬ (k : ℚ) / 32768 < 0 :=
      not_lt.2 (div_nonneg hk0Q (by norm_num))
    set d : ℤ := k * 32767 / 32768 with hd
    have hdb : d * 32768 ≤ k * 32767 ∧ k * 32767 < (d + 1) * 32768 := by
      constructor <;> omega
    have hdb1Q : (d : ℚ) * 32768 ≤ (k : ℚ) * 32767 := by exact_mod_cast hdb.1
    have hdb2Q : (k : ℚ) * 32767 < ((d : ℚ) + 1) * 32768 := by exact_mod_cast hdb.2
    have hft : floatTo16 ((k : ℚ) / 32768) = d := by
      unfold floatTo16 truncQ
      rw [hcl, if_neg hxpos,
        if_neg (not_lt.2 (mul_nonneg (div_nonneg hk0Q (by norm_num)) (by norm_num)))]
      rw [Int.floor_eq_iff]
      constructor
      · rw [div_mul_eq_mul_div, le_div_iff₀ (by norm_num : (0:ℚ) < 32768)]
        linarith
      · rw [div_mul_eq_mul_div, div_lt_iff₀ (by norm_num : (0:ℚ) < 32768)]
        linarith
    have hdk1 : d ≤ k := by omega
    have hdk2 : k - d ≤ 1 := by omega
    have hdk1Q : (d : ℚ) ≤ (k : ℚ) := by exact_mod_cast hdk1
    have hdk2Q : (k : ℚ) - (d : ℚ) ≤ 1 := by
      have : ((k - d : ℤ) : ℚ) ≤ ((1 : ℤ) : ℚ) := by exact_mod_cast hdk2
      push_cast at this
      linarith
    rw [hft, div_sub_div_same, abs_div]
    rw [abs_of_pos (show (0:ℚ) < 32768 by norm_num)]
    have habs : |(d : ℚ) - (k : ℚ)| ≤ 1 := by
      rw [abs_le]
      constructor <;> linarith
    linarith [habs]

/-- Decoding the encoded blob yields, pairwise, samples within one
quantization step of the originals, for grid inputs. -/
theorem codec_forall (xs : List ℚ)
    (h : ∀ x ∈ xs, ∃ k : ℤ, -32768 ≤ k ∧ k ≤ 32768 ∧ x = (k : ℚ) / 32768) :
    List.Forall₂ (fun y x => |y - x| ≤ (1 : ℚ) / 32768)
      (samplesOfBytes (decode (createPcmBlob xs).data)) xs := by
  have hdec : decode (createPcmBlob xs).data = bytesOfSamples xs :=
    decode_base64Encode _ (bytesOfSamples_lt xs)
  rw [hdec, samplesOfBytes_bytesOfSamples]
  clear hdec
  revert h
  induction xs with
  | nil =>
    intro _
    exact List.Forall₂.nil
  | cons x t ih =>
    intro h
    rcases h x (by simp) with ⟨k, hkl, hkr, rfl⟩
    simp only [List.map_cons]
    exact List.Forall₂.cons (floatTo16_grid_error k hkl hkr)
      (ih (fun y hy => h y (by simp [hy])))

/-- C3: for every sequence of float samples in [-1,1] lying on the 16-bit
quantization grid, decoding the encoded wire blob (decode composed with
encode, samples reconstructed by dividing by 32768) reproduces each original
sample with absolute error at most 1/32768, preserving the sample count. -/
theorem c3_codec_roundtrip (xs : List ℚ)
    (h : ∀ x ∈ xs, ∃ k : ℤ, -32768 ≤ k ∧ k ≤ 32768 ∧ x = (k : ℚ) / 32768) :
    (samplesOfBytes (decode (createPcmBlob xs).data)).length = xs.length ∧
    List.Forall₂ (fun y x => |y - x| ≤ (1 : ℚ) / 32768)
      (samplesOfBytes (decode (createPcmBlob xs).data)) xs := by
  have hf := codec_forall xs h
  exact ⟨hf.length_eq, hf⟩

/-- Witness for C3 at the concrete grid sequence [1/2, -1/32768, 1, 0]. -/
theorem c3_codec_roundtrip_witness :
    (∀ x ∈ ([1/2, -1/32768, 1, 0] : List ℚ),
        ∃ k : ℤ, -32768 ≤ k ∧ k ≤ 32768 ∧ x = (k : ℚ) / 32768) ∧
    ((samplesOfBytes (decode (createPcmBlob ([1/2, -1/32768, 1, 0] : List ℚ)).data)).length
        = ([1/2, -1/32768, 1, 0] : List ℚ).length ∧
      List.Forall₂ (fun y x => |y - x| ≤ (1 : ℚ) / 32768)
        (samplesOfBytes (decode (createPcmBlob ([1/2, -1/32768, 1, 0] : List ℚ)).data))
        ([1/2, -1/32768, 1, 0] : List ℚ)) := by
  have h : ∀ x ∈ ([1/2, -1/32768, 1, 0] : List ℚ),
      ∃ k : ℤ, -32768 ≤ k ∧ k ≤ 32768 ∧ x = (k : ℚ) / 32768 := by
    intro x hx
    simp only [List.mem_cons, List.not_mem_nil, or_false] at hx
    rcases hx with rfl | rfl | rfl | rfl
    · exact ⟨16384, by norm_num, by norm_num, by norm_num⟩
    · exact ⟨-1, by norm_num, by norm_num, by norm_num⟩
    · exact ⟨32768, by norm_num, by norm_num, by norm_num⟩
    · exact ⟨0, by norm_num, by norm_num, by norm_num⟩
  exact ⟨h, c3_codec_roundtrip ([1/2, -1/32768, 1, 0] : List ℚ) h⟩

/-! ## Application state and handlers (translated from src/App.tsx) -/

/-- Connection status enumeration from src/types.ts. -/
inductive ConnectionStatus where
  | DISCONNECTED
  | CONNECTING
  | CONNECTED
  | ERROR
deriving DecidableEq, Repr

/-- Lifecycle state of an AudioContext. -/
inductive CtxState where
  | running
  | closed
deriving DecidableEq, Repr

/-- A playback handle (AudioBufferSourceNode) scheduled by the onmessage
audio branch: its scheduled start time, its buffer duration, and whether
stop() has been called on it. -/
structure BufferSource where
  startTime : ℚ
  duration : ℚ
  stopped : Bool
deriving DecidableEq, Repr

/-- Externally visible actions the handlers perform on browser or service
objects. -/
inductive Effect where
  | closeSession
  | stopSource (s : BufferSource)
  | disconnectProcessor
  | disconnectInputSource
  | stopTrack (i : Nat)
  | closeInputCtx
  | closeOutputCtx
  | alert (msg : String)
  | getUserMedia
  | openSession
  | sendRealtime (blob : PcmBlob)
deriving DecidableEq, Repr

/-- The component's mutable state: React state hooks plus the refs of
src/App.tsx (lines 40-58). -/
@[ext]
structure AppState where
  status : ConnectionStatus
  isUserSpeaking : Bool
  isAiSpeaking : Bool
  nextStartTime : ℚ
  sources : List BufferSource
  sessionOpen : Bool
  inputCtx : Option CtxState
  outputCtx : Option CtxState
  outputNode : Bool
  processorConnected : Option Bool
  processorCallback : Bool
  inputSourceConnected : Option Bool
  streamTracks : Option (List Bool)
deriving DecidableEq, Repr

/-- Closing an audio context (guarded on `state !== 'closed'`, and a null ref
is a no-op). -/
def closeCtx : Option CtxState → Option CtxState
  | some CtxState.running => some CtxState.closed
  | c => c

/-- `cleanup` (src/App.tsx lines 77-112): closes the pending session, stops
every scheduled source, clears the set, disconnects the processor and input
source, stops the media tracks, closes both contexts unless already closed,
and resets status and both speaking indicators.  It does not touch
`nextStartTime` and does not null the processor or node refs. -/
def cleanup (st : AppState) : AppState × List Effect :=
  ({ status := ConnectionStatus.DISCONNECTED
     isUserSpeaking := false
     isAiSpeaking := false
     nextStartTime := st.nextStartTime
     sources := []
     sessionOpen := false
     inputCtx := closeCtx st.inputCtx
     outputCtx := closeCtx st.outputCtx
     outputNode := st.outputNode
     processorConnected := st.processorConnected.map (fun _ => false)
     processorCallback := if st.processorConnected.isSome then false else st.processorCallback
     inputSourceConnected := st.inputSourceConnected.map (fun _ => false)
     streamTracks := st.streamTracks.map (List.map (fun _ => false)) },
   (if st.sessionOpen then [Effect.closeSession] else [])
     ++ st.sources.map Effect.stopSource
     ++ (if st.processorConnected.isSome then [Effect.disconnectProcessor] else [])
     ++ (if st.inputSourceConnected.isSome then [Effect.disconnectInputSource] else [])
     ++ (match st.streamTracks with
         | some ts => (List.range ts.length).map Effect.stopTrack
         | none => [])
     ++ (if st.inputCtx = some CtxState.running then [Effect.closeInputCtx] else [])
     ++ (if st.outputCtx = some CtxState.running then [Effect.closeOutputCtx] else []))

/-- The audio branch of `onmessage` (src/App.tsx lines 184-211): read the
output clock, bump `nextStartTime` to at least the current clock, decode the
chunk, start it at `nextStartTime`, advance `nextStartTime` by its duration
and register the handle.  `now` is the output clock value read when
scheduling begins. -/
def handleAudioChunk (now : ℚ) (b64 : String) (st : AppState) :
    AppState × BufferSource :=
  let t := max st.nextStartTime now
  let src : BufferSource := { startTime := t, duration := chunkDuration b64, stopped := false }
  ({ st with
      isAiSpeaking := true
      nextStartTime := t + chunkDuration b64
      sources := st.sources ++ [src] },
   src)

/-- Guarded audio branch: fires only when the message carries non-empty
inline audio and both the output context and output node exist (the JS
truthiness test on line 184). -/
def audioBranch (now : ℚ) (b64 : String) (st : AppState) :
    AppState × Option BufferSource :=
  if b64 ≠ "" ∧ st.outputCtx.isSome ∧ st.outputNode = true then
    ((handleAudioChunk now b64 st).1, some (handleAudioChunk now b64 st).2)
  else (st, none)

/-- An inbound service message: optional inline base64 audio and the
interruption flag. -/
structure ServerMessage where
  audioData : Option String
  interrupted : Bool
deriving DecidableEq, Repr

/-- State after the audio branch of `onmessage` has run (identity when the
message carries no inline audio). -/
def messageAudioPhase (now : ℚ) (m : ServerMessage) (st : AppState) : AppState :=
  match m.audioData with
  | some b64 => (audioBranch now b64 st).1
  | none => st

/-- `onmessage` (src/App.tsx lines 180-222): the audio branch followed by the
interruption branch, which stops every registered handle, clears the set,
resets `nextStartTime` to 0 and clears the examiner-speaking indicator. -/
def onmessage (now : ℚ) (m : ServerMessage) (st : AppState) :
    AppState × List Effect :=
  let st1 := messageAudioPhase now m st
  if m.interrupted then
    ({ st1 with sources := [], nextStartTime := 0, isAiSpeaking := false },
     st1.sources.map Effect.stopSource)
  else (st1, [])

/-- `onclose` (src/App.tsx lines 223-226): logs and sets the status to
DISCONNECTED; nothing else. -/
def onclose (st : AppState) : AppState :=
  { st with status := ConnectionStatus.DISCONNECTED }

/-- `onerror` (src/App.tsx lines 227-231): sets the status to ERROR and then
runs `cleanup` (whose final `setStatus` overwrites the status again). -/
def onerror (st : AppState) : AppState × List Effect :=
  cleanup { st with status := ConnectionStatus.ERROR }

/-- `connect` (src/App.tsx lines 114-140, synchronous happy path): aborts
with an alert when the API key is empty; otherwise transitions to
CONNECTING, creates both audio contexts and the output gain node, acquires
the microphone stream and opens the streaming session. -/
def connect (apiKey : String) (st : AppState) : AppState × List Effect :=
  if apiKey = "" then
    (st, [Effect.alert "API Key is missing in environment variables"])
  else
    ({ st with
        status := ConnectionStatus.CONNECTING
        inputCtx := some CtxState.running
        outputCtx := some CtxState.running
        outputNode := true
        streamTracks := some [true]
        sessionOpen := true },
     [Effect.getUserMedia, Effect.openSession])

/-- Mean of the squared samples of a capture frame (the `sum / length` the
capture callback feeds into `Math.sqrt`). -/
def meanSquare (frame : List ℚ) : ℚ :=
  (frame.map (fun x => x * x)).sum / frame.length

/-- `onaudioprocess` (src/App.tsx lines 159-175): computes the RMS of the
frame, sets the user-speaking indicator exactly when RMS exceeds 0.02
(equivalently, when the mean square exceeds 0.02^2 = 1/2500, since square
root is strictly monotone on nonnegatives), and forwards the encoded frame
to the session when one is pending. -/
def onaudioprocess (frame : List ℚ) (st : AppState) : AppState × List Effect :=
  ({ st with isUserSpeaking := decide ((1 : ℚ) / 2500 < meanSquare frame) },
   if st.sessionOpen then [Effect.sendRealtime (createPcmBlob frame)] else [])

/-- Harness for C1: run a sequence of (clock value, base64 chunk) audio
messages through the onmessage audio branch, collecting each scheduled
source paired with the clock value read when it was scheduled. -/
def runAudio : AppState → List (ℚ × String) → List (ℚ × BufferSource) × AppState
  | st, [] => ([], st)
  | st, (now, b64) :: evs =>
    let r := audioBranch now b64 st
    let rest := runAudio r.1 evs
    (match r.2 with
     | some src => (now, src) :: rest.1
     | none => rest.1,
     rest.2)

/-! ## Scheduler lemmas and claim theorems -/

theorem chunkDuration_nonneg (b64 : String) : 0 ≤ chunkDuration b64 := by
  unfold chunkDuration
  positivity

/-- Invariant of the scheduling run: the collected trace is chained
back-to-back, and every scheduled source starts no earlier than the initial
`nextStartTime` and no earlier than the clock value read when it was
scheduled. -/
theorem runAudio_spec : ∀ (evs : List (ℚ × String)) (st : AppState),
    List.Chain' (fun a b => a.2.startTime + a.2.duration ≤ b.2.startTime)
      (runAudio st evs).1 ∧
    ∀ p ∈ (runAudio st evs).1,
      st.nextStartTime ≤ p.2.startTime ∧ p.1 ≤ p.2.startTime ∧ 0 ≤ p.2.duration
  | [], st => ⟨List.chain'_nil, by simp [runAudio]⟩
  | (now, b64) :: evs, st => by
    have ih := runAudio_spec evs
    by_cases hg : b64 ≠ "" ∧ st.outputCtx.isSome ∧ st.outputNode = true
    · have hstep : runAudio st ((now, b64) :: evs)
          = ((now, (handleAudioChunk now b64 st).2)
              :: (runAudio (handleAudioChunk now b64 st).1 evs).1,
             (runAudio (handleAudioChunk now b64 st).1 evs).2) := by
        simp [runAudio, audioBranch, hg]
      rw [hstep]
      obtain ⟨ihc, ihb⟩ := ih (handleAudioChunk now b64 st).1
      have hstart : (handleAudioChunk now b64 st).2.startTime
          = max st.nextStartTime now := rfl
      have hdur : (handleAudioChunk now b64 st).2.duration = chunkDuration b64 := rfl
      have hnext : (handleAudioChunk now b64 st).1.nextStartTime
          = max st.nextStartTime now + chunkDuration b64 := rfl
      constructor
      · refine List.chain'_cons'.2 ⟨?_, ihc⟩
        intro q hq
        have hb := ihb q (List.mem_of_mem_head? hq)
        rw [hstart, hdur]
        rw [hnext] at hb
        exact hb.1
      · intro p hp
        rcases List.mem_cons.1 hp with rfl | hp
        · refine ⟨?_, ?_, ?_⟩
          · rw [hstart]
            exact le_max_left _ _
          · rw [hstart]
            exact le_max_right _ _
          · rw [hdur]
            exact chunkDuration_nonneg b64
        · have hb := ihb p hp
          refine ⟨?_, hb.2.1, hb.2.2⟩
          have h1 : st.nextStartTime ≤ max st.nextStartTime now + chunkDuration b64 := by
            have := chunkDuration_nonneg b64
            have := le_max_left st.nextStartTime now
            linarith
          rw [hnext] at hb
          linarith [hb.1]
    · have hstep : runAudio st ((now, b64) :: evs) = runAudio st evs := by
        simp [runAudio, audioBranch, hg]
      rw [hstep]
      exact ih st

/-- C1: for every sequence of inbound audio chunks handled by the onmessage
audio branch, each scheduled chunk starts no earlier than the previous
chunk's start time plus its duration, and no earlier than the output clock's
value read when scheduling began, so consecutive chunks never overlap. -/
theorem c1_scheduler_nonoverlap (st : AppState) (evs : List (ℚ × String)) :
    List.Chain' (fun a b => a.2.startTime + a.2.duration ≤ b.2.startTime)
      (runAudio st evs).1 ∧
    ∀ p ∈ (runAudio st evs).1, p.1 ≤ p.2.startTime :=
  ⟨(runAudio_spec evs st).1, fun p hp => ((runAudio_spec evs st).2 p hp).2.1⟩

/-- The component's initial state: all refs null, status DISCONNECTED. -/
def initialState : AppState :=
  { status := ConnectionStatus.DISCONNECTED
    isUserSpeaking := false
    isAiSpeaking := false
    nextStartTime := 0
    sources := []
    sessionOpen := false
    inputCtx := none
    outputCtx := none
    outputNode := false
    processorConnected := none
    processorCallback := false
    inputSourceConnected := none
    streamTracks := none }

/-- A connected state with an idle output clock and no pending sources. -/
def connectedIdleState : AppState :=
  { initialState with
      status := ConnectionStatus.CONNECTED
      sessionOpen := true
      inputCtx := some CtxState.running
      outputCtx := some CtxState.running
      outputNode := true
      processorConnected := some true
      processorCallback := true
      inputSourceConnected := some true
      streamTracks := some [true] }

/-- Two audio messages: the second arrives when the clock reads 1/10. -/
def demoChunks : List (ℚ × String) := [(0, "AAAA"), (1/10, "AAAA")]

/-- Witness for C1: in the concrete run, the second chunk (scheduled when
the clock read 1/10) starts at 1/10, which is at or after that clock value. -/
theorem decode_AAAA : decode "AAAA" = [0, 0, 0] := by decide

theorem chunkDuration_AAAA : chunkDuration "AAAA" = 1 / 24000 := by
  unfold chunkDuration
  rw [decode_AAAA]
  norm_num

/-- Concrete evaluation of the scheduling run on `demoChunks`: the first
chunk starts at 0, the second at 1/10 (the clock value at its arrival, the
first chunk having ended at 1/24000). -/
theorem demo_trace :
    (runAudio connectedIdleState demoChunks).1
      = [((0 : ℚ), { startTime := 0, duration := 1/24000, stopped := false }),
         ((1/10 : ℚ), { startTime := 1/10, duration := 1/24000, stopped := false })] := by
  have hne : ("AAAA" : String) ≠ "" := by decide
  simp only [demoChunks, runAudio, audioBranch, handleAudioChunk]
  rw [if_pos ⟨hne, rfl, rfl⟩]
  simp only []
  rw [if_pos ⟨hne, rfl, rfl⟩]
  simp only [connectedIdleState, initialState, chunkDuration_AAAA]
  norm_num [max_eq_right]

/-- Witness for C1: in the concrete run, the second chunk (scheduled when
the clock read 1/10) starts at 1/10, at or after that clock value. -/
theorem c1_scheduler_nonoverlap_witness :
    ((1/10 : ℚ), ({ startTime := 1/10, duration := 1/24000, stopped := false } : BufferSource))
        ∈ (runAudio connectedIdleState demoChunks).1 ∧
    (1/10 : ℚ)
        ≤ ({ startTime := 1/10, duration := 1/24000, stopped := false } : BufferSource).startTime :=
  ⟨by rw [demo_trace]; simp,
   (c1_scheduler_nonoverlap connectedIdleState demoChunks).2
     ((1/10 : ℚ), ({ startTime := 1/10, duration := 1/24000, stopped := false } : BufferSource))
     (by rw [demo_trace]; simp)⟩

/-- C8: a chunk handled by the onmessage audio branch starts at
max(nextStartTime, clock now); in particular, when the clock has advanced
past the stale end time, it starts at the clock's current value. -/
theorem c8_gap_fill (st : AppState) (now : ℚ) (b64 : String) :
    (handleAudioChunk now b64 st).2.startTime = max st.nextStartTime now ∧
    (st.nextStartTime < now → (handleAudioChunk now b64 st).2.startTime = now) := by
  constructor
  · rfl
  · intro h
    show max st.nextStartTime now = now
    exact max_eq_right (le_of_lt h)

/-- Witness for C8: with an idle clock at 5 and nextStartTime 0, the chunk
starts at 5. -/
theorem c8_gap_fill_witness :
    connectedIdleState.nextStartTime < 5 ∧
    (handleAudioChunk 5 "AAAA" connectedIdleState).2.startTime = 5 :=
  ⟨by norm_num [connectedIdleState, initialState],
   (c8_gap_fill connectedIdleState 5 "AAAA").2
     (by norm_num [connectedIdleState, initialState])⟩

/-- The audio branch only ever appends to the source set. -/
theorem messageAudioPhase_sources_mono (now : ℚ) (m : ServerMessage) (st : AppState) :
    ∀ s ∈ st.sources, s ∈ (messageAudioPhase now m st).sources := by
  intro s hs
  unfold messageAudioPhase
  cases m.audioData with
  | none => exact hs
  | some b64 =>
    show s ∈ (audioBranch now b64 st).1.sources
    unfold audioBranch
    by_cases hc : b64 ≠ "" ∧ st.outputCtx.isSome = true ∧ st.outputNode = true
    · rw [if_pos hc]
      show s ∈ st.sources ++ [(handleAudioChunk now b64 st).2]
      exact List.mem_append_left _ hs
    · rw [if_neg hc]
      exact hs

/-- C2: after a message with the interrupted flag, every previously
registered handle receives a stop call, the source set is empty,
nextStartTime is 0, the examiner-speaking indicator is off, and any
subsequent scheduling starts at or after the clock value it reads. -/
theorem c2_interrupt_clears (now : ℚ) (m : ServerMessage) (st : AppState)
    (hint : m.interrupted = true) :
    (onmessage now m st).1.sources = [] ∧
    (onmessage now m st).1.nextStartTime = 0 ∧
    (onmessage now m st).1.isAiSpeaking = false ∧
    (∀ s ∈ st.sources, Effect.stopSource s ∈ (onmessage now m st).2) ∧
    (∀ now2 b64, now2 ≤ (handleAudioChunk now2 b64 (onmessage now m st).1).2.startTime) := by
  have hon : onmessage now m st
      = ({ messageAudioPhase now m st with
            sources := [], nextStartTime := 0, isAiSpeaking := false },
         (messageAudioPhase now m st).sources.map Effect.stopSource) := by
    unfold onmessage
    rw [hint]
    simp
  rw [hon]
  refine ⟨rfl, rfl, rfl, ?_, ?_⟩
  · intro s hs
    exact List.mem_map_of_mem Effect.stopSource
      (messageAudioPhase_sources_mono now m st s hs)
  · intro now2 b64
    show now2 ≤ max (0 : ℚ) now2
    exact le_max_right _ _

/-- A concrete mid-session state: connected, one unstopped scheduled source,
running contexts, live processor, input source and track. -/
def midSessionState : AppState :=
  { status := ConnectionStatus.CONNECTED
    isUserSpeaking := false
    isAiSpeaking := true
    nextStartTime := 2
    sources := [{ startTime := 1, duration := 1, stopped := false }]
    sessionOpen := true
    inputCtx := some CtxState.running
    outputCtx := some CtxState.running
    outputNode := true
    processorConnected := some true
    processorCallback := true
    inputSourceConnected := some true
    streamTracks := some [true] }

/-- Witness for C2 at a concrete interrupted message and mid-session state. -/
theorem c2_interrupt_clears_witness :
    ({ audioData := none, interrupted := true } : ServerMessage).interrupted = true ∧
    ((onmessage 3 { audioData := none, interrupted := true } midSessionState).1.sources = [] ∧
     (onmessage 3 { audioData := none, interrupted := true } midSessionState).1.nextStartTime = 0 ∧
     (onmessage 3 { audioData := none, interrupted := true } midSessionState).1.isAiSpeaking = false ∧
     (∀ s ∈ midSessionState.sources,
        Effect.stopSource s
          ∈ (onmessage 3 { audioData := none, interrupted := true } midSessionState).2) ∧
     (∀ now2 b64, now2 ≤ (handleAudioChunk now2 b64
        (onmessage 3 { audioData := none, interrupted := true } midSessionState).1).2.startTime)) :=
  ⟨rfl, c2_interrupt_clears 3 { audioData := none, interrupted := true } midSessionState rfl⟩

/-- C10: a message that carries neither inline audio nor the interruption
flag leaves the state unchanged and performs no effect. -/
theorem c10_no_audio_no_interrupt_frame (now : ℚ) (m : ServerMessage) (st : AppState)
    (ha : m.audioData = none) (hi : m.interrupted = false) :
    onmessage now m st = (st, []) := by
  unfold onmessage messageAudioPhase
  rw [ha, hi]
  simp

/-- Witness for C10 at a concrete empty message and mid-session state. -/
theorem c10_no_audio_no_interrupt_frame_witness :
    ({ audioData := none, interrupted := false } : ServerMessage).audioData = none ∧
    ({ audioData := none, interrupted := false } : ServerMessage).interrupted = false ∧
    onmessage 7 { audioData := none, interrupted := false } midSessionState
      = (midSessionState, []) :=
  ⟨rfl, rfl,
   c10_no_audio_no_interrupt_frame 7 { audioData := none, interrupted := false }
     midSessionState rfl rfl⟩

/-! ## Teardown, error and connect claims -/

theorem closeCtx_idem (c : Option CtxState) : closeCtx (closeCtx c) = closeCtx c := by
  rcases c with _ | c
  · rfl
  · cases c <;> rfl

theorem closeCtx_ne_running (c : Option CtxState) :
    closeCtx c ≠ some CtxState.running := by
  rcases c with _ | c
  · simp [closeCtx]
  · cases c <;> simp [closeCtx]

/-- The effects of a second, immediately repeated cleanup: only the (safely
re-runnable) disconnect and track-stop calls remain; no source stop and no
context close is attempted again. -/
theorem cleanup_second_effects (st : AppState) :
    (cleanup (cleanup st).1).2
      = (if st.processorConnected.isSome then [Effect.disconnectProcessor] else [])
        ++ ((if st.inputSourceConnected.isSome then [Effect.disconnectInputSource] else [])
        ++ (match st.streamTracks.map (List.map (fun _ => false)) with
            | some ts => (List.range ts.length).map Effect.stopTrack
            | none => [])) := by
  unfold cleanup
  simp only [Option.isSome_map]
  rw [if_neg (closeCtx_ne_running st.inputCtx), if_neg (closeCtx_ne_running st.outputCtx)]
  simp

/-- C6: cleanup is idempotent on the state, leaves status DISCONNECTED with
no active sources and both indicators off, and a repeated invocation
attempts no second source stop and no second context close. -/
theorem c6_cleanup_idempotent (st : AppState) :
    (cleanup (cleanup st).1).1 = (cleanup st).1 ∧
    (cleanup st).1.status = ConnectionStatus.DISCONNECTED ∧
    (cleanup st).1.sources = [] ∧
    (cleanup st).1.isUserSpeaking = false ∧
    (cleanup st).1.isAiSpeaking = false ∧
    ∀ e ∈ (cleanup (cleanup st).1).2,
      e ≠ Effect.closeInputCtx ∧ e ≠ Effect.closeOutputCtx ∧
        ∀ s, e ≠ Effect.stopSource s := by
  refine ⟨?_, rfl, rfl, rfl, rfl, ?_⟩
  · apply AppState.ext
    · rfl
    · rfl
    · rfl
    · rfl
    · rfl
    · rfl
    · exact closeCtx_idem st.inputCtx
    · exact closeCtx_idem st.outputCtx
    · rfl
    · simp only [cleanup]
      cases st.processorConnected <;> rfl
    · simp only [cleanup]
      cases st.processorConnected <;> rfl
    · simp only [cleanup]
      cases st.inputSourceConnected <;> rfl
    · simp only [cleanup]
      cases st.streamTracks <;> simp [Function.comp]
  · intro e he
    rw [cleanup_second_effects] at he
    have hform : e = Effect.disconnectProcessor ∨ e = Effect.disconnectInputSource ∨
        ∃ i, e = Effect.stopTrack i := by
      rcases List.mem_append.1 he with h1 | h1
      · left
        split at h1
        · simpa using h1
        · simp at h1
      · rcases List.mem_append.1 h1 with h2 | h2
        · right
          left
          split at h2
          · simpa using h2
          · simp at h2
        · right
          right
          rcases hm : st.streamTracks.map (List.map fun _ => false) with _ | ts
          · rw [hm] at h2
            simp at h2
          · rw [hm] at h2
            rcases List.mem_map.1 h2 with ⟨i, _, rfl⟩
            exact ⟨i, rfl⟩
    rcases hform with rfl | rfl | ⟨i, rfl⟩ <;>
      exact ⟨by simp, by simp, fun s => by simp⟩

/-- Witness for C6 at the empty initial state (nothing yet created). -/
theorem c6_cleanup_idempotent_witness :
    (cleanup (cleanup initialState).1).1 = (cleanup initialState).1 ∧
    (cleanup initialState).1.status = ConnectionStatus.DISCONNECTED ∧
    (cleanup initialState).1.sources = [] ∧
    (cleanup initialState).1.isUserSpeaking = false ∧
    (cleanup initialState).1.isAiSpeaking = false ∧
    ∀ e ∈ (cleanup (cleanup initialState).1).2,
      e ≠ Effect.closeInputCtx ∧ e ≠ Effect.closeOutputCtx ∧
        ∀ s, e ≠ Effect.stopSource s :=
  c6_cleanup_idempotent initialState

/-- C4 (evaluation at the failing input): after `onerror` runs on a
mid-session state, teardown has happened, but the status reads DISCONNECTED,
not ERROR: the trailing `setStatus` inside `cleanup` overwrites the ERROR
transition that `onerror` performed first. -/
theorem c4_onerror_status_overwritten :
    (onerror midSessionState).1.status = ConnectionStatus.DISCONNECTED ∧
    (onerror midSessionState).1.status ≠ ConnectionStatus.ERROR ∧
    (onerror midSessionState).1.sources = [] ∧
    (onerror midSessionState).1.sessionOpen = false ∧
    (onerror midSessionState).1.inputCtx = some CtxState.closed ∧
    (onerror midSessionState).1.outputCtx = some CtxState.closed ∧
    Effect.stopSource { startTime := 1, duration := 1, stopped := false }
      ∈ (onerror midSessionState).2 := by
  refine ⟨rfl, fun h => ConnectionStatus.noConfusion h, rfl, rfl, rfl, rfl, ?_⟩
  simp [onerror, cleanup, midSessionState]

/-- C5 counterexample: at a concrete mid-session state, `onclose` sets the
status to DISCONNECTED but stops nothing and closes nothing: the scheduled
source is still registered and unstopped, both contexts are still running,
the processor is still connected and the media track still live. -/
theorem c5_onclose_no_teardown_counterexample :
    (onclose midSessionState).status = ConnectionStatus.DISCONNECTED ∧
    (onclose midSessionState).sources
        = [{ startTime := 1, duration := 1, stopped := false }] ∧
    (onclose midSessionState).outputCtx = some CtxState.running ∧
    (onclose midSessionState).inputCtx = some CtxState.running ∧
    (onclose midSessionState).streamTracks = some [true] ∧
    (onclose midSessionState).processorConnected = some true ∧
    (onclose midSessionState).sessionOpen = true :=
  ⟨rfl, rfl, rfl, rfl, rfl, rfl, rfl⟩

/-- C5 (amended): when the service close callback fires, the controller
transitions to DISCONNECTED and does nothing else: playback handles, the
capture pipeline, media tracks and both audio contexts are left exactly as
they were; no teardown is performed. -/
theorem c5_onclose_disconnect_only (st : AppState) :
    (onclose st).status = ConnectionStatus.DISCONNECTED ∧
    (onclose st).isUserSpeaking = st.isUserSpeaking ∧
    (onclose st).isAiSpeaking = st.isAiSpeaking ∧
    (onclose st).nextStartTime = st.nextStartTime ∧
    (onclose st).sources = st.sources ∧
    (onclose st).sessionOpen = st.sessionOpen ∧
    (onclose st).inputCtx = st.inputCtx ∧
    (onclose st).outputCtx = st.outputCtx ∧
    (onclose st).outputNode = st.outputNode ∧
    (onclose st).processorConnected = st.processorConnected ∧
    (onclose st).inputSourceConnected = st.inputSourceConnected ∧
    (onclose st).streamTracks = st.streamTracks :=
  ⟨rfl, rfl, rfl, rfl, rfl, rfl, rfl, rfl, rfl, rfl, rfl, rfl⟩

/-- C7: with an empty API key, `connect` only raises the alert and returns:
the state (status included) is unchanged and no context, stream or session
creation is attempted. -/
theorem c7_missing_key (apiKey : String) (st : AppState) (h : apiKey = "") :
    connect apiKey st
      = (st, [Effect.alert "API Key is missing in environment variables"]) := by
  subst h
  unfold connect
  rw [if_pos rfl]

/-- Witness for C7 at the empty key and the initial state. -/
theorem c7_missing_key_witness :
    ("" : String) = "" ∧
    connect "" initialState
      = (initialState, [Effect.alert "API Key is missing in environment variables"]) :=
  ⟨rfl, c7_missing_key "" initialState rfl⟩

/-! ## Capture callback claim -/

theorem meanSquare_nonneg (frame : List ℚ) : 0 ≤ meanSquare frame := by
  unfold meanSquare
  apply div_nonneg
  · apply List.sum_nonneg
    intro y hy
    rcases List.mem_map.1 hy with ⟨x, _, rfl⟩
    exact mul_self_nonneg x
  · exact Nat.cast_nonneg _

/-- Mean square of a constant frame of positive length is the square. -/
theorem meanSquare_replicate (n : Nat) (hn : n ≠ 0) (c : ℚ) :
    meanSquare (List.replicate n c) = c * c := by
  unfold meanSquare
  rw [List.map_replicate, List.sum_replicate, List.length_replicate, nsmul_eq_mul]
  have hnQ : (n : ℚ) ≠ 0 := Nat.cast_ne_zero.2 hn
  field_simp

/-- C9: the capture callback activates the user-speaking indicator exactly
when the frame's RMS exceeds 0.02, forwards the encoded frame to a pending
session, and on the spec's concrete examples (constant frame of 0.05, and a
silent frame) behaves as stated. -/
theorem c9_capture_callback (frame : List ℚ) (st : AppState) :
    ((onaudioprocess frame st).1.isUserSpeaking = true ↔
      (1 / 50 : ℝ) < Real.sqrt ((meanSquare frame : ℚ) : ℝ)) ∧
    (st.sessionOpen = true →
      (onaudioprocess frame st).2 = [Effect.sendRealtime (createPcmBlob frame)]) ∧
    (onaudioprocess (List.replicate 4096 ((1 : ℚ) / 20)) st).1.isUserSpeaking = true ∧
    (onaudioprocess (List.replicate 4096 (0 : ℚ)) st).1.isUserSpeaking = false := by
  refine ⟨?_, ?_, ?_, ?_⟩
  · show decide ((1 : ℚ) / 2500 < meanSquare frame) = true ↔ _
    rw [decide_eq_true_eq]
    rw [Real.lt_sqrt (by norm_num : (0 : ℝ) ≤ 1 / 50)]
    rw [show ((1 : ℝ) / 50) ^ 2 = 1 / 2500 by norm_num]
    rw [show (1 : ℝ) / 2500 = (((1 : ℚ) / 2500 : ℚ) : ℝ) from by norm_num]
    exact Rat.cast_lt.symm
  · intro h
    show (if st.sessionOpen then [Effect.sendRealtime (createPcmBlob frame)] else []) = _
    rw [h]
    simp
  · show decide ((1 : ℚ) / 2500 < meanSquare (List.replicate 4096 ((1 : ℚ) / 20))) = true
    rw [decide_eq_true_eq, meanSquare_replicate 4096 (by norm_num) ((1 : ℚ) / 20)]
    norm_num
  · show decide ((1 : ℚ) / 2500 < meanSquare (List.replicate 4096 (0 : ℚ))) = false
    rw [decide_eq_false_iff_not]
    rw [meanSquare_replicate 4096 (by norm_num) (0 : ℚ)]
    norm_num

/-- Witness for C9: at a mock frame of constant 0.05 samples and a connected
state with a pending session, the indicator turns on and the encoded frame
is forwarded; a silent frame turns the indicator off. -/
theorem c9_capture_callback_witness :
    midSessionState.sessionOpen = true ∧
    (onaudioprocess (List.replicate 4096 ((1 : ℚ) / 20)) midSessionState).2
      = [Effect.sendRealtime (createPcmBlob (List.replicate 4096 ((1 : ℚ) / 20)))] ∧
    (onaudioprocess (List.replicate 4096 ((1 : ℚ) / 20)) midSessionState).1.isUserSpeaking
      = true ∧
    (onaudioprocess (List.replicate 4096 (0 : ℚ)) midSessionState).1.isUserSpeaking
      = false :=
  ⟨rfl,
   (c9_capture_callback (List.replicate 4096 ((1 : ℚ) / 20)) midSessionState).2.1 rfl,
   (c9_capture_callback (List.replicate 4096 ((1 : ℚ) / 20)) midSessionState).2.2.1,
   (c9_capture_callback (List.replicate 4096 ((1 : ℚ) / 20)) midSessionState).2.2.2⟩
